import Mathlib

/-!
# Verification of the openroutergo chat-completion request builder

Shallow embedding of the request-builder / optional-field / execution layer
of the `openroutergo` Go client, together with proofs of the specified
properties.

Embedded from the source:
* `internal/optional/types.go` — the generic tri-state `Optional` wrapper
  and its JSON codec (`MarshalJSON` / `UnmarshalJSON`);
* `chat_completion.go` — the `chatCompletionRole` codec, the message / tool
  data model, the `chatCompletionBuilder` aggregate, its fluent setters, and
  the request-body assembly performed at the start of `Execute`
  (the `requestBodyMap` construction).

JSON documents are modelled by the inductive type `Json`; Go's
`map[string]any` request body is modelled as an association list built in
program order (all keys written by the assembler are distinct, so an
association list is a faithful model of the Go map's key/value content).
Go `float64` parameter values are only ever carried verbatim, never computed
with, so they are modelled by `Rat`.

Parts of the repository referenced by its examples but absent from the
source tree (the `Clone` method, the snapshot-returning `Execute` and its
response classification) are modelled from the spec; each such definition
carries a doc comment starting with `Modelled from the spec:`.
-/

/-- JSON values, used for the wire payload and for both codecs. -/
inductive Json where
  | null : Json
  | bool (b : Bool) : Json
  | num (q : Rat) : Json
  | str (s : String) : Json
  | arr (elems : List Json) : Json
  | obj (fields : List (String × Json)) : Json

/-- Key lookup in a JSON-object field list (the model of Go map indexing). -/
def jsonLookup (key : String) : List (String × Json) → Option Json
  | [] => none
  | (k, v) :: rest => if k = key then some v else jsonLookup key rest

/-- Key-presence test in a JSON-object field list. -/
def jsonHasKey (key : String) (fields : List (String × Json)) : Bool :=
  (jsonLookup key fields).isSome

namespace optional

/-- Embeds `Optional[T any]` from `internal/optional/types.go`:
`{ IsSet bool; Value T }`. -/
structure Optional (T : Type) where
  isSet : Bool
  value : T
deriving Repr, DecidableEq

/-- Embeds `Optional[T].MarshalJSON`: `null` when unset, otherwise the
element's own encoding (`json.Marshal(o.Value)`, supplied as `enc`). -/
def Optional.marshalJSON {T : Type} (enc : T → Json) (o : Optional T) : Json :=
  if !o.isSet then Json.null else enc o.value

/-- Embeds `Optional[T].UnmarshalJSON` at the JSON-token level: the `null`
token yields an unset wrapper holding the zero value; any other token is
decoded by the element's own decoder (`json.Unmarshal(b, &value)`, supplied
as `dec`) and yields a set wrapper. The Go source's `len(b) == 0` byte-level
case has no counterpart at the token level. -/
def Optional.unmarshalJSON {T : Type} [Inhabited T]
    (dec : Json → Except String T) (j : Json) : Except String (Optional T) :=
  match j with
  | Json.null => Except.ok ⟨false, default⟩
  | j => (dec j).map (fun v => ⟨true, v⟩)

end optional

open optional

/-- Embeds `chatCompletionRole`, an `enum.Member[string]`: a wrapper
around the role's string value. -/
structure chatCompletionRole where
  value : String
deriving Repr, DecidableEq

/-- Embeds `chatCompletionRole.MarshalJSON`: `json.Marshal(ccr.Value)`. -/
def chatCompletionRole.marshalJSON (ccr : chatCompletionRole) : Json :=
  Json.str ccr.value

/-- Embeds `chatCompletionRole.UnmarshalJSON`: unmarshal the data into a
string (failing on any non-string token) and store it verbatim — no
membership check against the known roles. -/
def chatCompletionRole.unmarshalJSON (data : Json) :
    Except String chatCompletionRole :=
  match data with
  | Json.str value => Except.ok ⟨value⟩
  | _ => Except.error "json: cannot unmarshal into Go value of type string"

/-- `RoleSystem = chatCompletionRole{"system"}`. -/
def RoleSystem : chatCompletionRole := ⟨"system"⟩
/-- `RoleUser = chatCompletionRole{"user"}`. -/
def RoleUser : chatCompletionRole := ⟨"user"⟩
/-- `RoleAssistant = chatCompletionRole{"assistant"}`. -/
def RoleAssistant : chatCompletionRole := ⟨"assistant"⟩

/-- Embeds `chatCompletionMessage`: `{ Role, Content }` with JSON keys
`role` and `content`. -/
structure chatCompletionMessage where
  role : chatCompletionRole
  content : String
deriving Repr, DecidableEq

/-- JSON encoding of a message per its struct tags. -/
def chatCompletionMessage.toJson (m : chatCompletionMessage) : Json :=
  Json.obj [("role", m.role.marshalJSON), ("content", Json.str m.content)]

/-- Embeds `ChatCompletionTool`: `{ Description (omitempty), Name,
Parameters }`. `Parameters` is an opaque caller-supplied JSON-object
mapping. -/
structure ChatCompletionTool where
  description : String
  name : String
  parameters : List (String × Json)

/-- Embeds `chatCompletionToolFunction`: `{ Type, Function }`, where the
`WithTool` setter always writes `Type = "function"`. -/
structure chatCompletionToolFunction where
  type : String
  function : ChatCompletionTool

/-- JSON encoding of `ChatCompletionTool` per its struct tags:
`description` is omitted when empty (`omitempty`). -/
def ChatCompletionTool.toJson (t : ChatCompletionTool) : Json :=
  Json.obj
    ((if t.description = "" then [] else [("description", Json.str t.description)])
      ++ [("name", Json.str t.name), ("parameters", Json.obj t.parameters)])

/-- JSON encoding of `chatCompletionToolFunction` per its struct tags. -/
def chatCompletionToolFunction.toJson (tf : chatCompletionToolFunction) : Json :=
  Json.obj [("type", Json.str tf.type), ("function", tf.function.toJson)]

/-- Embeds the request-relevant state of `chatCompletionBuilder`.
The `client` pointer and the `ctx` context handle are not part of the
assembled payload and are omitted; `optional.MapAny` (the response-format
mapping) is modelled as an optional JSON-object field list. -/
structure chatCompletionBuilder where
  model : Optional String
  messages : List chatCompletionMessage
  tools : List chatCompletionToolFunction
  temperature : Optional Rat
  topP : Optional Rat
  topK : Optional Int
  frecuencyPenalty : Optional Rat
  presencePenalty : Optional Rat
  repetitionPenalty : Optional Rat
  minP : Optional Rat
  topA : Optional Rat
  seed : Optional Int
  maxTokens : Optional Int
  responseFormat : Optional (List (String × Json))
  structuredOutputs : Optional Bool
  toolChoice : Optional String
  maxPromptPrice : Optional Rat
  maxCompletionPrice : Optional Rat

/-- Embeds `Client.NewChatCompletion`: every optional starts unset (holding
its Go zero value) and both sequences start empty. -/
def NewChatCompletion : chatCompletionBuilder where
  model := ⟨false, ""⟩
  messages := []
  tools := []
  temperature := ⟨false, 0⟩
  topP := ⟨false, 0⟩
  topK := ⟨false, 0⟩
  frecuencyPenalty := ⟨false, 0⟩
  presencePenalty := ⟨false, 0⟩
  repetitionPenalty := ⟨false, 0⟩
  minP := ⟨false, 0⟩
  topA := ⟨false, 0⟩
  seed := ⟨false, 0⟩
  maxTokens := ⟨false, 0⟩
  responseFormat := ⟨false, []⟩
  structuredOutputs := ⟨false, false⟩
  toolChoice := ⟨false, ""⟩
  maxPromptPrice := ⟨false, 0⟩
  maxCompletionPrice := ⟨false, 0⟩

namespace chatCompletionBuilder

/-- Embeds `WithModel`. -/
def WithModel (b : chatCompletionBuilder) (model : String) : chatCompletionBuilder :=
  { b with model := ⟨true, model⟩ }

/-- Embeds `WithSystemMessage`: appends `{Role: RoleSystem, Content: message}`. -/
def WithSystemMessage (b : chatCompletionBuilder) (message : String) : chatCompletionBuilder :=
  { b with messages := b.messages ++ [⟨RoleSystem, message⟩] }

/-- Embeds `WithUserMessage`: appends `{Role: RoleUser, Content: message}`. -/
def WithUserMessage (b : chatCompletionBuilder) (message : String) : chatCompletionBuilder :=
  { b with messages := b.messages ++ [⟨RoleUser, message⟩] }

/-- Embeds `WithAssistantMessage`: appends `{Role: RoleAssistant, Content: message}`. -/
def WithAssistantMessage (b : chatCompletionBuilder) (message : String) : chatCompletionBuilder :=
  { b with messages := b.messages ++ [⟨RoleAssistant, message⟩] }

/-- Embeds `WithTool`: appends `{Type: "function", Function: tool}`. -/
def WithTool (b : chatCompletionBuilder) (tool : ChatCompletionTool) : chatCompletionBuilder :=
  { b with tools := b.tools ++ [⟨"function", tool⟩] }

/-- Embeds `WithTemperature`. -/
def WithTemperature (b : chatCompletionBuilder) (temperature : Rat) : chatCompletionBuilder :=
  { b with temperature := ⟨true, temperature⟩ }

/-- Embeds `WithTopP`. -/
def WithTopP (b : chatCompletionBuilder) (topP : Rat) : chatCompletionBuilder :=
  { b with topP := ⟨true, topP⟩ }

/-- Embeds `WithTopK`. -/
def WithTopK (b : chatCompletionBuilder) (topK : Int) : chatCompletionBuilder :=
  { b with topK := ⟨true, topK⟩ }

/-- Embeds `WithFrequencyPenalty` (stored in the `frecuencyPenalty` field,
spelled as in the source). -/
def WithFrequencyPenalty (b : chatCompletionBuilder) (frequencyPenalty : Rat) : chatCompletionBuilder :=
  { b with frecuencyPenalty := ⟨true, frequencyPenalty⟩ }

/-- Embeds `WithPresencePenalty`. -/
def WithPresencePenalty (b : chatCompletionBuilder) (presencePenalty : Rat) : chatCompletionBuilder :=
  { b with presencePenalty := ⟨true, presencePenalty⟩ }

/-- Embeds `WithRepetitionPenalty`. -/
def WithRepetitionPenalty (b : chatCompletionBuilder) (repetitionPenalty : Rat) : chatCompletionBuilder :=
  { b with repetitionPenalty := ⟨true, repetitionPenalty⟩ }

/-- Embeds `WithMinP`. -/
def WithMinP (b : chatCompletionBuilder) (minP : Rat) : chatCompletionBuilder :=
  { b with minP := ⟨true, minP⟩ }

/-- Embeds `WithTopA`. -/
def WithTopA (b : chatCompletionBuilder) (topA : Rat) : chatCompletionBuilder :=
  { b with topA := ⟨true, topA⟩ }

/-- Embeds `WithSeed`. -/
def WithSeed (b : chatCompletionBuilder) (seed : Int) : chatCompletionBuilder :=
  { b with seed := ⟨true, seed⟩ }

/-- Embeds `WithMaxTokens`. -/
def WithMaxTokens (b : chatCompletionBuilder) (maxTokens : Int) : chatCompletionBuilder :=
  { b with maxTokens := ⟨true, maxTokens⟩ }

/-- Embeds `WithResponseFormat`. -/
def WithResponseFormat (b : chatCompletionBuilder) (responseFormat : List (String × Json)) : chatCompletionBuilder :=
  { b with responseFormat := ⟨true, responseFormat⟩ }

/-- Embeds `WithStructuredOutputs`. -/
def WithStructuredOutputs (b : chatCompletionBuilder) (structuredOutputs : Bool) : chatCompletionBuilder :=
  { b with structuredOutputs := ⟨true, structuredOutputs⟩ }

/-- Embeds `WithToolChoice`. -/
def WithToolChoice (b : chatCompletionBuilder) (toolChoice : String) : chatCompletionBuilder :=
  { b with toolChoice := ⟨true, toolChoice⟩ }

/-- Embeds `WithMaxPrice`: the single setter writing both price-ceiling
halves at once. -/
def WithMaxPrice (b : chatCompletionBuilder) (maxPromptPrice : Rat) (maxCompletionPrice : Rat) : chatCompletionBuilder :=
  { b with maxPromptPrice := ⟨true, maxPromptPrice⟩,
           maxCompletionPrice := ⟨true, maxCompletionPrice⟩ }

end chatCompletionBuilder

/-- Embeds the `requestBodyMap` construction of `Execute`
(`chat_completion.go`, lines 371-434), as an association list written in
program order. Every key below is distinct, so the association list carries
exactly the Go map's content. -/
def requestBody (b : chatCompletionBuilder) : List (String × Json) :=
  (if b.messages.length > 0 then
    [("messages", Json.arr (b.messages.map chatCompletionMessage.toJson))] else [])
  ++ (if b.tools.length > 0 then
    [("tools", Json.arr (b.tools.map chatCompletionToolFunction.toJson))] else [])
  ++ (if b.model.isSet then [("model", Json.str b.model.value)] else [])
  ++ (if b.temperature.isSet then [("temperature", Json.num b.temperature.value)] else [])
  ++ (if b.topP.isSet then [("top_p", Json.num b.topP.value)] else [])
  ++ (if b.topK.isSet then [("top_k", Json.num b.topK.value)] else [])
  ++ (if b.frecuencyPenalty.isSet then [("frequency_penalty", Json.num b.frecuencyPenalty.value)] else [])
  ++ (if b.presencePenalty.isSet then [("presence_penalty", Json.num b.presencePenalty.value)] else [])
  ++ (if b.repetitionPenalty.isSet then [("repetition_penalty", Json.num b.repetitionPenalty.value)] else [])
  ++ (if b.minP.isSet then [("min_p", Json.num b.minP.value)] else [])
  ++ (if b.topA.isSet then [("top_a", Json.num b.topA.value)] else [])
  ++ (if b.seed.isSet then [("seed", Json.num b.seed.value)] else [])
  ++ (if b.maxTokens.isSet then [("max_tokens", Json.num b.maxTokens.value)] else [])
  ++ (if b.responseFormat.isSet then [("response_format", Json.obj b.responseFormat.value)] else [])
  ++ (if b.structuredOutputs.isSet then [("structured_outputs", Json.bool b.structuredOutputs.value)] else [])
  ++ (if b.toolChoice.isSet then
        [("tool_choice",
          if b.toolChoice.value ∈ ["none", "auto", "required"] then
            Json.str b.toolChoice.value
          else
            Json.obj [("type", Json.str "function"),
                      ("function", Json.obj [("name", Json.str b.toolChoice.value)])])]
      else [])
  ++ (if b.maxPromptPrice.isSet ∧ b.maxCompletionPrice.isSet then
        [("max_price", Json.obj [("prompt", Json.num b.maxPromptPrice.value),
                                 ("completion", Json.num b.maxCompletionPrice.value)])]
      else [])

/-- A message-append setter call, tagged by which of the three
`With*Message` setters was used. -/
inductive MsgOp where
  | system (content : String) : MsgOp
  | user (content : String) : MsgOp
  | assistant (content : String) : MsgOp

/-- Applies the corresponding source setter. -/
def MsgOp.apply (b : chatCompletionBuilder) : MsgOp → chatCompletionBuilder
  | MsgOp.system s => b.WithSystemMessage s
  | MsgOp.user s => b.WithUserMessage s
  | MsgOp.assistant s => b.WithAssistantMessage s

/-- The message each setter call appends, with the role the source fixes
for that setter. -/
def MsgOp.message : MsgOp → chatCompletionMessage
  | MsgOp.system s => ⟨RoleSystem, s⟩
  | MsgOp.user s => ⟨RoleUser, s⟩
  | MsgOp.assistant s => ⟨RoleAssistant, s⟩

/-- Runs a sequence of message-append setter calls in order. -/
def applyMsgOps (b : chatCompletionBuilder) (ops : List MsgOp) : chatCompletionBuilder :=
  ops.foldl MsgOp.apply b

/-- Runs a sequence of `WithTool` calls in order. -/
def applyToolOps (b : chatCompletionBuilder) (ts : List ChatCompletionTool) : chatCompletionBuilder :=
  ts.foldl chatCompletionBuilder.WithTool b

/-- The builders reachable from `NewChatCompletion` through the exported
setters (one constructor per setter in `chat_completion.go`). -/
inductive Reachable : chatCompletionBuilder → Prop where
  | init : Reachable NewChatCompletion
  | withModel (b : chatCompletionBuilder) (m : String) :
      Reachable b → Reachable (b.WithModel m)
  | withSystemMessage (b : chatCompletionBuilder) (m : String) :
      Reachable b → Reachable (b.WithSystemMessage m)
  | withUserMessage (b : chatCompletionBuilder) (m : String) :
      Reachable b → Reachable (b.WithUserMessage m)
  | withAssistantMessage (b : chatCompletionBuilder) (m : String) :
      Reachable b → Reachable (b.WithAssistantMessage m)
  | withTool (b : chatCompletionBuilder) (t : ChatCompletionTool) :
      Reachable b → Reachable (b.WithTool t)
  | withTemperature (b : chatCompletionBuilder) (x : Rat) :
      Reachable b → Reachable (b.WithTemperature x)
  | withTopP (b : chatCompletionBuilder) (x : Rat) :
      Reachable b → Reachable (b.WithTopP x)
  | withTopK (b : chatCompletionBuilder) (x : Int) :
      Reachable b → Reachable (b.WithTopK x)
  | withFrequencyPenalty (b : chatCompletionBuilder) (x : Rat) :
      Reachable b → Reachable (b.WithFrequencyPenalty x)
  | withPresencePenalty (b : chatCompletionBuilder) (x : Rat) :
      Reachable b → Reachable (b.WithPresencePenalty x)
  | withRepetitionPenalty (b : chatCompletionBuilder) (x : Rat) :
      Reachable b → Reachable (b.WithRepetitionPenalty x)
  | withMinP (b : chatCompletionBuilder) (x : Rat) :
      Reachable b → Reachable (b.WithMinP x)
  | withTopA (b : chatCompletionBuilder) (x : Rat) :
      Reachable b → Reachable (b.WithTopA x)
  | withSeed (b : chatCompletionBuilder) (x : Int) :
      Reachable b → Reachable (b.WithSeed x)
  | withMaxTokens (b : chatCompletionBuilder) (x : Int) :
      Reachable b → Reachable (b.WithMaxTokens x)
  | withResponseFormat (b : chatCompletionBuilder) (rf : List (String × Json)) :
      Reachable b → Reachable (b.WithResponseFormat rf)
  | withStructuredOutputs (b : chatCompletionBuilder) (x : Bool) :
      Reachable b → Reachable (b.WithStructuredOutputs x)
  | withToolChoice (b : chatCompletionBuilder) (x : String) :
      Reachable b → Reachable (b.WithToolChoice x)
  | withMaxPrice (b : chatCompletionBuilder) (p q : Rat) :
      Reachable b → Reachable (b.WithMaxPrice p q)

/-! ## Heap model of builder identity

Go builders are heap-allocated and mutated through a pointer; `Clone` must
produce an allocation whose later mutation cannot reach the original. The
heap is modelled as an association list from allocation ids to builder
contents, and each fluent setter as an in-place update of one cell. -/

/-- A heap of live builder allocations. -/
abbrev ConfigHeap : Type := List (Nat × chatCompletionBuilder)

/-- Reads the builder stored at id `i`. -/
def heapGet (h : ConfigHeap) (i : Nat) : Option chatCompletionBuilder :=
  match h with
  | [] => none
  | (k, b) :: rest => if k = i then some b else heapGet rest i

/-- Overwrites the cell with id `i` (leaving other cells alone). -/
def heapSet (h : ConfigHeap) (i : Nat) (b : chatCompletionBuilder) : ConfigHeap :=
  match h with
  | [] => []
  | (k, c) :: rest => if k = i then (k, b) :: heapSet rest i b else (k, c) :: heapSet rest i b

/-- The ids of the live allocations. -/
def heapIds (h : ConfigHeap) : List Nat :=
  match h with
  | [] => []
  | (k, _) :: rest => k :: heapIds rest

/-- An id strictly larger than every live id. -/
def freshId (h : ConfigHeap) : Nat := (heapIds h).foldr max 0 + 1

/-- Modelled from the spec: the `Clone` method (§4.2) is referenced by the
repository's examples but absent from the source tree under `src/`. Per the
contract it produces "a value with the same field-for-field content as the
source" such that later mutation of either side never affects the other:
a deep copy into a fresh allocation. -/
def cloneOp (h : ConfigHeap) (i : Nat) : ConfigHeap × Nat :=
  match heapGet h i with
  | some b => ((freshId h, b) :: h, freshId h)
  | none => (h, freshId h)

/-- Runs one fluent setter against the builder stored at id `i`, writing the
result back in place (the Go pointer-receiver semantics). -/
def mutateAt (h : ConfigHeap) (i : Nat) (f : chatCompletionBuilder → chatCompletionBuilder) : ConfigHeap :=
  match heapGet h i with
  | some b => heapSet h i (f b)
  | none => h

/-- Runs a sequence of fluent setters against the builder stored at id `i`. -/
def applyOpsAt (h : ConfigHeap) (i : Nat)
    (fs : List (chatCompletionBuilder → chatCompletionBuilder)) : ConfigHeap :=
  fs.foldl (fun acc f => mutateAt acc i f) h

/-! ## Execution pipeline -/

/-- Message of one choice of `ChatCompletionResponse` (anonymous nested
struct in the source). -/
structure ChoiceMessage where
  role : chatCompletionRole
  content : String
deriving Repr, DecidableEq

/-- One choice of `ChatCompletionResponse`. -/
structure Choice where
  message : ChoiceMessage
deriving Repr, DecidableEq

/-- Embeds `ChatCompletionResponse`: `{ ID, Choices }`. -/
structure ChatCompletionResponse where
  id : String
  choices : List Choice
deriving Repr, DecidableEq

/-- The Go zero value of `ChatCompletionResponse{}`. -/
def zeroResponse : ChatCompletionResponse := ⟨"", []⟩

/-- Decodes a JSON token into a Go `string` field: missing and `null`
tokens leave the zero value, a string token is taken verbatim, anything
else is a type error (the `encoding/json` behaviour). -/
def decodeStringField (fields : List (String × Json)) (key : String) : Except String String :=
  match jsonLookup key fields with
  | none => Except.ok ""
  | some Json.null => Except.ok ""
  | some (Json.str s) => Except.ok s
  | some _ => Except.error "json: cannot unmarshal into Go value of type string"

/-- Decodes the `message` object of one choice. -/
def decodeChoiceMessage (j : Json) : Except String ChoiceMessage :=
  match j with
  | Json.null => Except.ok ⟨⟨""⟩, ""⟩
  | Json.obj fields =>
    match jsonLookup "role" fields with
    | none => (decodeStringField fields "content").map (fun c => ⟨⟨""⟩, c⟩)
    | some Json.null => (decodeStringField fields "content").map (fun c => ⟨⟨""⟩, c⟩)
    | some rj =>
      match chatCompletionRole.unmarshalJSON rj with
      | Except.error e => Except.error e
      | Except.ok r => (decodeStringField fields "content").map (fun c => ⟨r, c⟩)
  | _ => Except.error "json: cannot unmarshal into Go value of type struct"

/-- Decodes one element of the `choices` array. -/
def decodeChoice (j : Json) : Except String Choice :=
  match j with
  | Json.null => Except.ok ⟨⟨⟨""⟩, ""⟩⟩
  | Json.obj fields =>
    match jsonLookup "message" fields with
    | none => Except.ok ⟨⟨⟨""⟩, ""⟩⟩
    | some mj => (decodeChoiceMessage mj).map (fun m => ⟨m⟩)
  | _ => Except.error "json: cannot unmarshal into Go value of type struct"

/-- Decodes a list of choices, failing on the first bad element. -/
def decodeChoices (js : List Json) : Except String (List Choice) :=
  match js with
  | [] => Except.ok []
  | j :: rest =>
    match decodeChoice j with
    | Except.error e => Except.error e
    | Except.ok c => (decodeChoices rest).map (fun cs => c :: cs)

/-- Decodes a response body into `ChatCompletionResponse` the way
`encoding/json` decodes into the source struct: absent keys keep zero
values, mismatched token kinds fail. -/
def decodeResponse (j : Json) : Except String ChatCompletionResponse :=
  match j with
  | Json.obj fields =>
    match decodeStringField fields "id" with
    | Except.error e => Except.error e
    | Except.ok i =>
      match jsonLookup "choices" fields with
      | none => Except.ok ⟨i, []⟩
      | some Json.null => Except.ok ⟨i, []⟩
      | some (Json.arr js) => (decodeChoices js).map (fun cs => ⟨i, cs⟩)
      | some _ => Except.error "json: cannot unmarshal into Go value of type slice"
  | _ => Except.error "json: cannot unmarshal into Go value of type struct"

/-- Modelled from the spec: the API Error Payload (§3), decoded from a body
whose top level holds an `error` key: `{ error: { code: int, message:
string, metadata } }`. Absent sub-fields keep their zero values. -/
def decodeErrorPayload (j : Json) : Except String (Rat × String) :=
  match j with
  | Json.obj fields =>
    match jsonLookup "error" fields with
    | some (Json.obj efields) =>
      Except.ok
        ((match jsonLookup "code" efields with
          | some (Json.num q) => q
          | _ => 0),
         (match jsonLookup "message" efields with
          | some (Json.str s) => s
          | _ => ""))
    | _ => Except.error "error payload has no error object"
  | _ => Except.error "error payload is not a JSON object"

/-- The error taxonomy of the execution pipeline (§7): precondition,
transport, body-parse, API-level and decode failures. -/
inductive ExecError where
  | messagesRequired : ExecError
  | transportFailure (cause : String) : ExecError
  | bodyParseFailure (cause : String) : ExecError
  | apiError (code : Rat) (message : String) : ExecError
  | decodeFailure (cause : String) : ExecError
deriving Repr, DecidableEq

/-- The transport capability (§6): takes the assembled payload and yields
either a transport failure or a status code with the raw body. -/
def Transport : Type := List (String × Json) → Except String (Nat × Json)

/-- The three values Execute hands back. -/
structure ExecuteResult where
  snapshot : chatCompletionBuilder
  response : ChatCompletionResponse
  error : Option ExecError

/-- Modelled from the spec: the snapshot-returning `Execute` (§4.4) is
referenced by the repository's examples (three-value destructuring) but
absent from the source tree under `src/`, which only holds an older
two-value variant. Per §4.4: fail fast with `MessagesRequired` on an empty
message sequence, still returning a snapshot; otherwise take the pre-call
snapshot, assemble the payload from the current state (the `requestBody`
embedded from the source), invoke the transport, parse the body into a
generic mapping, branch on the presence of a top-level `error` key, and
return the snapshot alongside the decoded response (zero value on failure)
and the error (none on success). -/
def chatCompletionBuilder.Execute (b : chatCompletionBuilder) (transport : Transport) : ExecuteResult :=
  if b.messages.isEmpty then
    ⟨b, zeroResponse, some ExecError.messagesRequired⟩
  else
    match transport (requestBody b) with
    | Except.error cause => ⟨b, zeroResponse, some (ExecError.transportFailure cause)⟩
    | Except.ok (_statusCode, body) =>
      match body with
      | Json.obj fields =>
        if jsonHasKey "error" fields then
          match decodeErrorPayload body with
          | Except.ok (code, message) => ⟨b, zeroResponse, some (ExecError.apiError code message)⟩
          | Except.error cause => ⟨b, zeroResponse, some (ExecError.bodyParseFailure cause)⟩
        else
          match decodeResponse body with
          | Except.ok resp => ⟨b, resp, none⟩
          | Except.error cause => ⟨b, zeroResponse, some (ExecError.decodeFailure cause)⟩
      | _ => ⟨b, zeroResponse, some (ExecError.bodyParseFailure "body is not a JSON object")⟩

/-! ## Element codecs used to instantiate the generic `Optional` laws -/

/-- Go's `encoding/json` encoding of an `any` element: a `nil` interface
value marshals to the `null` literal, any other held JSON document marshals
to itself. -/
def anyEnc : Option Json → Json
  | none => Json.null
  | some j => j

/-- Go's `encoding/json` decoding into an `any` element: the `null` literal
decodes to the `nil` interface value, anything else to itself. -/
def anyDec : Json → Except String (Option Json)
  | Json.null => Except.ok none
  | j => Except.ok (some j)

/-- Go's `encoding/json` decoding into a `string` element. -/
def stringDec : Json → Except String String
  | Json.str s => Except.ok s
  | _ => Except.error "json: cannot unmarshal into Go value of type string"

/-! ## Helper lemmas about payload lookup -/

theorem jsonLookup_nil (key : String) : jsonLookup key [] = none := rfl

theorem jsonLookup_cons (k key : String) (v : Json) (rest : List (String × Json)) :
    jsonLookup key ((k, v) :: rest) = if k = key then some v else jsonLookup key rest := rfl

theorem jsonLookup_if_append {c : Prop} [Decidable c] (k key : String) (v : Json)
    (rest : List (String × Json)) :
    jsonLookup key ((if c then [(k, v)] else []) ++ rest) =
      if c ∧ k = key then some v else jsonLookup key rest := by
  by_cases hc : c <;> by_cases hk : k = key <;> simp [jsonLookup, hc, hk]

theorem jsonLookup_if_single {c : Prop} [Decidable c] (k key : String) (v : Json) :
    jsonLookup key (if c then [(k, v)] else []) =
      if c ∧ k = key then some v else none := by
  by_cases hc : c <;> by_cases hk : k = key <;> simp [jsonLookup, hc, hk]

/-- Closed form of the assembler's `messages` key. -/
theorem requestBody_lookup_messages (b : chatCompletionBuilder) :
    jsonLookup "messages" (requestBody b) =
      if b.messages.length > 0 then
        some (Json.arr (b.messages.map chatCompletionMessage.toJson)) else none := by
  simp [requestBody, jsonLookup_if_append, jsonLookup_if_single]

/-- C7: the assembled wire payload contains the key of an optional field iff
that field's `Optional` wrapper has `isSet` true; unset optionals contribute
nothing, and set optionals always appear carrying their stored value, even a
falsy one (the closed forms below yield e.g. `temperature ↦ 0.0` when a set
temperature holds `0.0`). -/
theorem requestBody_optional_key_presence (b : chatCompletionBuilder) :
    (jsonLookup "model" (requestBody b) =
      if b.model.isSet then some (Json.str b.model.value) else none)
  ∧ (jsonLookup "temperature" (requestBody b) =
      if b.temperature.isSet then some (Json.num b.temperature.value) else none)
  ∧ (jsonLookup "top_p" (requestBody b) =
      if b.topP.isSet then some (Json.num b.topP.value) else none)
  ∧ (jsonLookup "top_k" (requestBody b) =
      if b.topK.isSet then some (Json.num b.topK.value) else none)
  ∧ (jsonLookup "frequency_penalty" (requestBody b) =
      if b.frecuencyPenalty.isSet then some (Json.num b.frecuencyPenalty.value) else none)
  ∧ (jsonLookup "presence_penalty" (requestBody b) =
      if b.presencePenalty.isSet then some (Json.num b.presencePenalty.value) else none)
  ∧ (jsonLookup "repetition_penalty" (requestBody b) =
      if b.repetitionPenalty.isSet then some (Json.num b.repetitionPenalty.value) else none)
  ∧ (jsonLookup "min_p" (requestBody b) =
      if b.minP.isSet then some (Json.num b.minP.value) else none)
  ∧ (jsonLookup "top_a" (requestBody b) =
      if b.topA.isSet then some (Json.num b.topA.value) else none)
  ∧ (jsonLookup "seed" (requestBody b) =
      if b.seed.isSet then some (Json.num b.seed.value) else none)
  ∧ (jsonLookup "max_tokens" (requestBody b) =
      if b.maxTokens.isSet then some (Json.num b.maxTokens.value) else none)
  ∧ (jsonLookup "response_format" (requestBody b) =
      if b.responseFormat.isSet then some (Json.obj b.responseFormat.value) else none)
  ∧ (jsonLookup "structured_outputs" (requestBody b) =
      if b.structuredOutputs.isSet then some (Json.bool b.structuredOutputs.value) else none)
  ∧ (jsonHasKey "tool_choice" (requestBody b) = b.toolChoice.isSet) := by
  have htc : jsonHasKey "tool_choice" (requestBody b) = b.toolChoice.isSet := by
    by_cases h : b.toolChoice.isSet <;>
      simp [requestBody, jsonHasKey, jsonLookup_if_append, jsonLookup_if_single, jsonLookup_cons, jsonLookup_nil, h]
  refine ⟨?_, ?_, ?_, ?_, ?_, ?_, ?_, ?_, ?_, ?_, ?_, ?_, ?_, htc⟩ <;>
    simp [requestBody, jsonLookup_if_append, jsonLookup_if_single]

/-- C6: when the tool-choice optional is set, the assembler emits the value
verbatim as a bare string under `tool_choice` when it is one of the literals
`none`, `auto`, `required`, and otherwise emits the wrapped object
`{"type":"function","function":{"name":v}}`. -/
theorem requestBody_toolChoice_polymorphism (b : chatCompletionBuilder)
    (h : b.toolChoice.isSet = true) :
    jsonLookup "tool_choice" (requestBody b) =
      some (if b.toolChoice.value ∈ ["none", "auto", "required"] then
              Json.str b.toolChoice.value
            else
              Json.obj [("type", Json.str "function"),
                        ("function", Json.obj [("name", Json.str b.toolChoice.value)])]) := by
  simp [requestBody, jsonLookup_if_append, jsonLookup_if_single, jsonLookup_cons, jsonLookup_nil, h]

/-- Witness for C6 at the concrete builder `WithToolChoice "myTool"`. -/
theorem requestBody_toolChoice_polymorphism_witness :
    (NewChatCompletion.WithToolChoice "myTool").toolChoice.isSet = true
  ∧ jsonLookup "tool_choice" (requestBody (NewChatCompletion.WithToolChoice "myTool")) =
      some (if (NewChatCompletion.WithToolChoice "myTool").toolChoice.value ∈ ["none", "auto", "required"] then
              Json.str (NewChatCompletion.WithToolChoice "myTool").toolChoice.value
            else
              Json.obj [("type", Json.str "function"),
                        ("function", Json.obj [("name",
                          Json.str (NewChatCompletion.WithToolChoice "myTool").toolChoice.value)])]) :=
  ⟨rfl, requestBody_toolChoice_polymorphism _ rfl⟩

/-- The pairing invariant behind C5: every builder reachable through the
exported setters has its two price-ceiling halves set together, because
`WithMaxPrice` is the only setter touching either half and sets both. -/
theorem reachable_price_halves_paired (b : chatCompletionBuilder) (hb : Reachable b) :
    b.maxPromptPrice.isSet = b.maxCompletionPrice.isSet := by
  induction hb <;>
    simp_all [NewChatCompletion, chatCompletionBuilder.WithModel,
      chatCompletionBuilder.WithSystemMessage, chatCompletionBuilder.WithUserMessage,
      chatCompletionBuilder.WithAssistantMessage, chatCompletionBuilder.WithTool,
      chatCompletionBuilder.WithTemperature, chatCompletionBuilder.WithTopP,
      chatCompletionBuilder.WithTopK, chatCompletionBuilder.WithFrequencyPenalty,
      chatCompletionBuilder.WithPresencePenalty, chatCompletionBuilder.WithRepetitionPenalty,
      chatCompletionBuilder.WithMinP, chatCompletionBuilder.WithTopA,
      chatCompletionBuilder.WithSeed, chatCompletionBuilder.WithMaxTokens,
      chatCompletionBuilder.WithResponseFormat, chatCompletionBuilder.WithStructuredOutputs,
      chatCompletionBuilder.WithToolChoice, chatCompletionBuilder.WithMaxPrice]

/-- C5: the payload holds `max_price` iff both price ceilings are set; when
present it is the nested `{prompt, completion}` object; and a builder with
only one half set is unreachable through the setters, `WithMaxPrice` (the
only setter for either half) setting both at once. -/
theorem requestBody_maxPrice_pair (b : chatCompletionBuilder) (hb : Reachable b) :
    (jsonHasKey "max_price" (requestBody b) =
      (b.maxPromptPrice.isSet && b.maxCompletionPrice.isSet))
  ∧ b.maxPromptPrice.isSet = b.maxCompletionPrice.isSet
  ∧ (b.maxPromptPrice.isSet = true →
      jsonLookup "max_price" (requestBody b) =
        some (Json.obj [("prompt", Json.num b.maxPromptPrice.value),
                        ("completion", Json.num b.maxCompletionPrice.value)])) := by
  have hpair := reachable_price_halves_paired b hb
  refine ⟨?_, hpair, ?_⟩
  · by_cases h : b.maxPromptPrice.isSet = true ∧ b.maxCompletionPrice.isSet = true
    · simp [requestBody, jsonHasKey, jsonLookup_if_append, jsonLookup_if_single,
        jsonLookup_cons, jsonLookup_nil, h.1, h.2]
    · have h1 : ¬(b.maxPromptPrice.isSet = true ∧ b.maxCompletionPrice.isSet = true) := h
      rcases Decidable.not_and_iff_or_not.mp h1 with h2 | h2 <;>
        simp_all [requestBody, jsonHasKey, jsonLookup_if_append, jsonLookup_if_single]
  · intro hp
    have hc : b.maxCompletionPrice.isSet = true := hpair ▸ hp
    simp [requestBody, jsonLookup_if_append, jsonLookup_if_single, jsonLookup_cons,
      jsonLookup_nil, hp, hc]

/-- Witness for C5 at the concrete builder `WithMaxPrice 1 2` (reachable
from `NewChatCompletion`). -/
theorem requestBody_maxPrice_pair_witness :
    (jsonHasKey "max_price" (requestBody (NewChatCompletion.WithMaxPrice 1 2)) =
      ((NewChatCompletion.WithMaxPrice 1 2).maxPromptPrice.isSet &&
        (NewChatCompletion.WithMaxPrice 1 2).maxCompletionPrice.isSet))
  ∧ (NewChatCompletion.WithMaxPrice 1 2).maxPromptPrice.isSet =
      (NewChatCompletion.WithMaxPrice 1 2).maxCompletionPrice.isSet
  ∧ ((NewChatCompletion.WithMaxPrice 1 2).maxPromptPrice.isSet = true →
      jsonLookup "max_price" (requestBody (NewChatCompletion.WithMaxPrice 1 2)) =
        some (Json.obj [("prompt", Json.num (NewChatCompletion.WithMaxPrice 1 2).maxPromptPrice.value),
                        ("completion", Json.num (NewChatCompletion.WithMaxPrice 1 2).maxCompletionPrice.value)])) :=
  requestBody_maxPrice_pair _ (Reachable.withMaxPrice _ 1 2 Reachable.init)

/-! ## Helper lemmas about setter-call sequences -/

theorem MsgOp_apply_messages (b : chatCompletionBuilder) (op : MsgOp) :
    (MsgOp.apply b op).messages = b.messages ++ [op.message] := by
  cases op <;> rfl

theorem applyMsgOps_messages (ops : List MsgOp) (b : chatCompletionBuilder) :
    (applyMsgOps b ops).messages = b.messages ++ ops.map MsgOp.message := by
  induction ops generalizing b with
  | nil => simp [applyMsgOps]
  | cons op rest ih =>
    have hstep : applyMsgOps b (op :: rest) = applyMsgOps (MsgOp.apply b op) rest := rfl
    rw [hstep, ih, MsgOp_apply_messages]
    simp

theorem applyToolOps_tools (ts : List ChatCompletionTool) (b : chatCompletionBuilder) :
    (applyToolOps b ts).tools = b.tools ++ ts.map (fun t => ⟨"function", t⟩) := by
  induction ts generalizing b with
  | nil => simp [applyToolOps]
  | cons t rest ih =>
    have hstep : applyToolOps b (t :: rest) = applyToolOps (b.WithTool t) rest := rfl
    rw [hstep, ih]
    simp [chatCompletionBuilder.WithTool]

/-- C9: a sequence of message-append setter calls yields exactly those
messages appended in call order, each with the role fixed by the setter
used, and the assembled payload's `messages` array lists them in that
order; `WithTool` calls likewise extend the tools sequence in call order. -/
theorem requestBody_preserves_insertion_order (b : chatCompletionBuilder)
    (ops : List MsgOp) (ts : List ChatCompletionTool) (h : ops ≠ []) :
    (applyMsgOps b ops).messages = b.messages ++ ops.map MsgOp.message
  ∧ (applyToolOps b ts).tools = b.tools ++ ts.map (fun t => ⟨"function", t⟩)
  ∧ jsonLookup "messages" (requestBody (applyMsgOps NewChatCompletion ops)) =
      some (Json.arr ((ops.map MsgOp.message).map chatCompletionMessage.toJson)) := by
  refine ⟨applyMsgOps_messages ops b, applyToolOps_tools ts b, ?_⟩
  have hmsgs : (applyMsgOps NewChatCompletion ops).messages = ops.map MsgOp.message := by
    rw [applyMsgOps_messages]
    rfl
  rw [requestBody_lookup_messages, hmsgs]
  simp [h]

/-- Witness for C9: one system then one user message, and one tool. -/
theorem requestBody_preserves_insertion_order_witness :
    ([MsgOp.system "be brief", MsgOp.user "hi"] ≠ ([] : List MsgOp))
  ∧ ((applyMsgOps NewChatCompletion [MsgOp.system "be brief", MsgOp.user "hi"]).messages =
      NewChatCompletion.messages ++
        [MsgOp.system "be brief", MsgOp.user "hi"].map MsgOp.message
    ∧ (applyToolOps NewChatCompletion [⟨"", "getWeather", []⟩]).tools =
        NewChatCompletion.tools ++
          ([⟨"", "getWeather", []⟩] : List ChatCompletionTool).map (fun t => ⟨"function", t⟩)
    ∧ jsonLookup "messages"
        (requestBody (applyMsgOps NewChatCompletion [MsgOp.system "be brief", MsgOp.user "hi"])) =
        some (Json.arr (([MsgOp.system "be brief", MsgOp.user "hi"].map MsgOp.message).map
          chatCompletionMessage.toJson))) :=
  ⟨List.cons_ne_nil _ _,
   requestBody_preserves_insertion_order NewChatCompletion
     [MsgOp.system "be brief", MsgOp.user "hi"] [⟨"", "getWeather", []⟩]
     (List.cons_ne_nil _ _)⟩

/-- C10: decoding a message role from any JSON string token succeeds and
stores the string verbatim — membership in the closed role set is never
checked — and re-encoding the decoded role reproduces the original JSON
string token. -/
theorem role_decode_verbatim_roundtrip (s : String) :
    chatCompletionRole.unmarshalJSON (Json.str s) = Except.ok ⟨s⟩
  ∧ (chatCompletionRole.unmarshalJSON (Json.str s)).map chatCompletionRole.marshalJSON =
      Except.ok (Json.str s) :=
  ⟨rfl, rfl⟩

/-- C8 (counterexample to the claim as stated): the round-trip law
"decoding encode(v) yields isSet true and value v" fails for a set
`Optional` over Go's `any` holding the nil interface value: `nil` is
encodable (it marshals to the `null` literal), so `encode(set, nil)` is the
`null` literal, and decoding that yields `isSet = false`, not `true`. -/
theorem optional_roundtrip_counterexample :
    Optional.marshalJSON anyEnc (⟨true, none⟩ : Optional (Option Json)) = Json.null
  ∧ Optional.unmarshalJSON anyDec
      (Optional.marshalJSON anyEnc (⟨true, none⟩ : Optional (Option Json))) =
      Except.ok (⟨false, none⟩ : Optional (Option Json))
  ∧ (⟨false, none⟩ : Optional (Option Json)).isSet = false :=
  ⟨rfl, rfl, rfl⟩

/-- C8 (amended): encoding an unset `Optional` yields the JSON null literal
(whatever value it holds); decoding the null literal yields `isSet` false
and the zero value; encoding a set `Optional` holding `v` equals `v`'s own
encoding; and for every `v` whose own encoding is not the null literal and
whose element codec round-trips on `v`, decoding `encode(v)` yields `isSet`
true and value `v`. -/
theorem optional_roundtrip_laws {T : Type} [Inhabited T]
    (enc : T → Json) (dec : Json → Except String T) :
    (∀ x : T, Optional.marshalJSON enc ⟨false, x⟩ = Json.null)
  ∧ Optional.unmarshalJSON dec Json.null = Except.ok (⟨false, default⟩ : Optional T)
  ∧ (∀ v : T, Optional.marshalJSON enc ⟨true, v⟩ = enc v)
  ∧ (∀ v : T, enc v ≠ Json.null → dec (enc v) = Except.ok v →
      Optional.unmarshalJSON dec (enc v) = Except.ok (⟨true, v⟩ : Optional T)) := by
  refine ⟨fun x => rfl, rfl, fun v => rfl, fun v hnull hdec => ?_⟩
  rcases henc : enc v with _ | c | q | s | es | fs
  · exact absurd henc hnull
  all_goals rw [henc] at hdec; simp [Optional.unmarshalJSON, hdec, Except.map]

/-- Witness for C8's amended laws at `T = String` with Go's string codec and
the value `"x"`. -/
theorem optional_roundtrip_laws_witness :
    Optional.marshalJSON Json.str (⟨false, ""⟩ : Optional String) = Json.null
  ∧ Optional.unmarshalJSON stringDec Json.null = Except.ok (⟨false, ""⟩ : Optional String)
  ∧ Optional.marshalJSON Json.str (⟨true, "x"⟩ : Optional String) = Json.str "x"
  ∧ Optional.unmarshalJSON stringDec (Json.str "x") = Except.ok (⟨true, "x"⟩ : Optional String) := by
  have h := optional_roundtrip_laws (T := String) Json.str stringDec
  refine ⟨h.1 "", h.2.1, h.2.2.1 "x", ?_⟩
  exact h.2.2.2 "x" (fun hh => Json.noConfusion hh) rfl

/-! ## Helper lemmas about the builder heap -/

theorem le_foldr_max (l : List Nat) (i : Nat) (hi : i ∈ l) : i ≤ l.foldr max 0 := by
  induction l with
  | nil => cases hi
  | cons a rest ih =>
    rcases List.mem_cons.mp hi with rfl | hmem
    · exact le_max_left _ _
    · exact le_trans (ih hmem) (le_max_right _ _)

theorem heapGet_mem_ids (h : ConfigHeap) (i : Nat) (b : chatCompletionBuilder)
    (hg : heapGet h i = some b) : i ∈ heapIds h := by
  induction h with
  | nil => simp [heapGet] at hg
  | cons p rest ih =>
    obtain ⟨k, c⟩ := p
    by_cases hk : k = i
    · subst hk
      simp [heapIds]
    · rw [heapGet, if_neg hk] at hg
      simp [heapIds, ih hg]

theorem heapGet_lt_freshId (h : ConfigHeap) (i : Nat) (b : chatCompletionBuilder)
    (hg : heapGet h i = some b) : i < freshId h :=
  Nat.lt_succ_of_le (le_foldr_max _ _ (heapGet_mem_ids h i b hg))

theorem heapGet_heapSet_ne (h : ConfigHeap) (i j : Nat) (b : chatCompletionBuilder)
    (hij : i ≠ j) : heapGet (heapSet h i b) j = heapGet h j := by
  induction h with
  | nil => rfl
  | cons p rest ih =>
    obtain ⟨k, c⟩ := p
    by_cases hk : k = i
    · subst hk
      have hkj : ¬k = j := hij
      rw [heapSet, if_pos rfl, heapGet, if_neg hkj, heapGet, if_neg hkj, ih]
    · by_cases hkj : k = j
      · rw [heapSet, if_neg hk, heapGet, if_pos hkj, heapGet, if_pos hkj]
      · rw [heapSet, if_neg hk, heapGet, if_neg hkj, heapGet, if_neg hkj, ih]

theorem mutateAt_get_ne (h : ConfigHeap) (i j : Nat)
    (f : chatCompletionBuilder → chatCompletionBuilder) (hij : i ≠ j) :
    heapGet (mutateAt h i f) j = heapGet h j := by
  unfold mutateAt
  cases heapGet h i with
  | none => rfl
  | some b => exact heapGet_heapSet_ne h i j (f b) hij

theorem applyOpsAt_get_ne (fs : List (chatCompletionBuilder → chatCompletionBuilder))
    (h : ConfigHeap) (i j : Nat) (hij : i ≠ j) :
    heapGet (applyOpsAt h i fs) j = heapGet h j := by
  induction fs generalizing h with
  | nil => rfl
  | cons f rest ih =>
    have hstep : applyOpsAt h i (f :: rest) = applyOpsAt (mutateAt h i f) i rest := rfl
    rw [hstep, ih, mutateAt_get_ne h i j f hij]

/-- C1 (clone independence): cloning builder `a` allocates a fresh id whose
cell holds the same field-for-field content; thereafter any sequence of
setter mutations applied to the clone leaves the original's stored builder —
in particular its message sequence and the wire payload assembled from it —
unchanged, and any sequence applied to the original leaves the clone
unchanged. -/
theorem clone_independence (h : ConfigHeap) (a : Nat) (A : chatCompletionBuilder)
    (ha : heapGet h a = some A)
    (opsB opsA : List (chatCompletionBuilder → chatCompletionBuilder)) :
    (cloneOp h a).2 ≠ a
  ∧ heapGet (cloneOp h a).1 (cloneOp h a).2 = some A
  ∧ heapGet (cloneOp h a).1 a = some A
  ∧ heapGet (applyOpsAt (cloneOp h a).1 (cloneOp h a).2 opsB) a = some A
  ∧ (heapGet (applyOpsAt (cloneOp h a).1 (cloneOp h a).2 opsB) a).map
      chatCompletionBuilder.messages = some A.messages
  ∧ (heapGet (applyOpsAt (cloneOp h a).1 (cloneOp h a).2 opsB) a).map
      requestBody = some (requestBody A)
  ∧ heapGet (applyOpsAt (cloneOp h a).1 a opsA) (cloneOp h a).2 = some A := by
  have hne : freshId h ≠ a := Nat.ne_of_gt (heapGet_lt_freshId h a A ha)
  have hclone : cloneOp h a = ((freshId h, A) :: h, freshId h) := by
    rw [cloneOp, ha]
  rw [hclone]
  have hgetNew : heapGet ((freshId h, A) :: h) (freshId h) = some A := by
    rw [heapGet, if_pos rfl]
  have hgetOld : heapGet ((freshId h, A) :: h) a = some A := by
    rw [heapGet, if_neg hne, ha]
  have hframeB : heapGet (applyOpsAt ((freshId h, A) :: h) (freshId h) opsB) a = some A := by
    rw [applyOpsAt_get_ne opsB _ _ _ hne, hgetOld]
  have hframeA : heapGet (applyOpsAt ((freshId h, A) :: h) a opsA) (freshId h) = some A := by
    rw [applyOpsAt_get_ne opsA _ _ _ (Ne.symm hne), hgetNew]
  exact ⟨hne, hgetNew, hgetOld, hframeB,
    by rw [hframeB]; rfl, by rw [hframeB]; rfl, hframeA⟩

/-- Witness for C1: a one-cell heap holding `NewChatCompletion`, a clone,
one user-message append on the clone and one system-message append on the
original. -/
theorem clone_independence_witness :
    heapGet [(0, NewChatCompletion)] 0 = some NewChatCompletion
  ∧ ((cloneOp [(0, NewChatCompletion)] 0).2 ≠ 0
    ∧ heapGet (cloneOp [(0, NewChatCompletion)] 0).1 (cloneOp [(0, NewChatCompletion)] 0).2 =
        some NewChatCompletion
    ∧ heapGet (cloneOp [(0, NewChatCompletion)] 0).1 0 = some NewChatCompletion
    ∧ heapGet (applyOpsAt (cloneOp [(0, NewChatCompletion)] 0).1
        (cloneOp [(0, NewChatCompletion)] 0).2
        [fun b => b.WithUserMessage "What is the capital of France?"]) 0 =
        some NewChatCompletion
    ∧ (heapGet (applyOpsAt (cloneOp [(0, NewChatCompletion)] 0).1
        (cloneOp [(0, NewChatCompletion)] 0).2
        [fun b => b.WithUserMessage "What is the capital of France?"]) 0).map
        chatCompletionBuilder.messages = some NewChatCompletion.messages
    ∧ (heapGet (applyOpsAt (cloneOp [(0, NewChatCompletion)] 0).1
        (cloneOp [(0, NewChatCompletion)] 0).2
        [fun b => b.WithUserMessage "What is the capital of France?"]) 0).map
        requestBody = some (requestBody NewChatCompletion)
    ∧ heapGet (applyOpsAt (cloneOp [(0, NewChatCompletion)] 0).1 0
        [fun b => b.WithSystemMessage "You are a helpful assistant."])
        (cloneOp [(0, NewChatCompletion)] 0).2 = some NewChatCompletion) :=
  ⟨rfl, clone_independence [(0, NewChatCompletion)] 0 NewChatCompletion rfl
    [fun b => b.WithUserMessage "What is the capital of France?"]
    [fun b => b.WithSystemMessage "You are a helpful assistant."]⟩

/-- C2: Execute hands back three values — the pre-call configuration
snapshot, the decoded Response (the zero value on every failure), and the
error (none exactly on success, in which case the response is the decode of
the transport's body) — and the snapshot is the pre-call configuration on
every path, success or failure. -/
theorem execute_returns_snapshot_response_error (b : chatCompletionBuilder) (t : Transport) :
    (b.Execute t).snapshot = b
  ∧ ((b.Execute t).error.isSome → (b.Execute t).response = zeroResponse)
  ∧ ((b.Execute t).error = none →
      ∃ statusCode body, t (requestBody b) = Except.ok (statusCode, body) ∧
        decodeResponse body = Except.ok (b.Execute t).response) := by
  by_cases hm : b.messages.isEmpty
  · simp [chatCompletionBuilder.Execute, hm]
  · cases ht : t (requestBody b) with
    | error cause => simp [chatCompletionBuilder.Execute, hm, ht]
    | ok pr =>
      obtain ⟨statusCode, body⟩ := pr
      cases body with
      | obj fields =>
        by_cases he : jsonHasKey "error" fields
        · cases hd : decodeErrorPayload (Json.obj fields) with
          | ok p =>
            obtain ⟨c, m⟩ := p
            simp [chatCompletionBuilder.Execute, hm, ht, he, hd]
          | error e2 => simp [chatCompletionBuilder.Execute, hm, ht, he, hd]
        · cases hd : decodeResponse (Json.obj fields) with
          | ok resp =>
            refine ⟨?_, ?_, ?_⟩ <;>
              simp [chatCompletionBuilder.Execute, hm, ht, he, hd]
            exact ⟨statusCode, Json.obj fields, ⟨rfl, rfl⟩, hd⟩
          | error e2 => simp [chatCompletionBuilder.Execute, hm, ht, he, hd]
      | null => simp [chatCompletionBuilder.Execute, hm, ht]
      | bool c => simp [chatCompletionBuilder.Execute, hm, ht]
      | num q => simp [chatCompletionBuilder.Execute, hm, ht]
      | str s => simp [chatCompletionBuilder.Execute, hm, ht]
      | arr es => simp [chatCompletionBuilder.Execute, hm, ht]

/-- C3: when the transport's body is a JSON object whose top level holds an
`error` key carrying code 402 and message "insufficient credit", Execute
returns the API-level error with exactly that code and message, the zero
Response, and the snapshot — it is classified neither as a success nor as a
decode failure. -/
theorem execute_api_error_classification (b : chatCompletionBuilder) (t : Transport)
    (statusCode : Nat) (hmsg : b.messages ≠ [])
    (ht : t (requestBody b) = Except.ok (statusCode,
      Json.obj [("error", Json.obj [("code", Json.num 402),
                                    ("message", Json.str "insufficient credit")])])) :
    b.Execute t =
      ⟨b, zeroResponse, some (ExecError.apiError 402 "insufficient credit")⟩ := by
  have hm : b.messages.isEmpty = false := by
    simp [List.isEmpty_iff, hmsg]
  simp [chatCompletionBuilder.Execute, hm, ht, jsonHasKey, jsonLookup_cons,
    jsonLookup_nil, decodeErrorPayload]

/-- Witness for C3: one user message and a transport stub returning the
402 error body. -/
theorem execute_api_error_classification_witness :
    ((NewChatCompletion.WithUserMessage "hi").messages ≠ [])
  ∧ ((fun _ => Except.ok (402,
      Json.obj [("error", Json.obj [("code", Json.num 402),
                                    ("message", Json.str "insufficient credit")])]) : Transport)
      (requestBody (NewChatCompletion.WithUserMessage "hi")) = Except.ok (402,
      Json.obj [("error", Json.obj [("code", Json.num 402),
                                    ("message", Json.str "insufficient credit")])]))
  ∧ (NewChatCompletion.WithUserMessage "hi").Execute
      (fun _ => Except.ok (402,
        Json.obj [("error", Json.obj [("code", Json.num 402),
                                      ("message", Json.str "insufficient credit")])])) =
      ⟨NewChatCompletion.WithUserMessage "hi", zeroResponse,
        some (ExecError.apiError 402 "insufficient credit")⟩ :=
  ⟨by simp [NewChatCompletion, chatCompletionBuilder.WithUserMessage], rfl,
   execute_api_error_classification (NewChatCompletion.WithUserMessage "hi") _ 402
     (by simp [NewChatCompletion, chatCompletionBuilder.WithUserMessage]) rfl⟩

/-- C4: on an empty message sequence Execute fails immediately with the
`MessagesRequired` error and still returns the snapshot; the result is the
same for every transport (no network call contributes to it). -/
theorem execute_empty_messages (b : chatCompletionBuilder) (hb : b.messages = []) :
    ∀ t : Transport,
      b.Execute t = ⟨b, zeroResponse, some ExecError.messagesRequired⟩ := by
  intro t
  simp [chatCompletionBuilder.Execute, hb]

/-- Witness for C4: the fresh builder and a transport stub that fails if
consulted. -/
theorem execute_empty_messages_witness :
    NewChatCompletion.messages = []
  ∧ NewChatCompletion.Execute (fun _ => Except.error "transport must not be reached") =
      ⟨NewChatCompletion, zeroResponse, some ExecError.messagesRequired⟩ :=
  ⟨rfl, execute_empty_messages NewChatCompletion rfl
    (fun _ => Except.error "transport must not be reached")⟩
